import Mathlib

/-!
Shallow embedding of the Risk Scoring Pipeline implemented in
`ml_services/Risk_Score_Engine/model.py` (MapLY repository).

A pandas DataFrame is modelled as a list of column names plus rows of
cells; numeric values are rationals.  Fallible pandas / sklearn
operations return `Except Err`, with `Err` naming the Python exception
condition that the library call raises.  The black-box fitted estimators
(`RobustScaler`, `XGBRegressor`) are abstracted as an `MLBackend` of
fitting functions, so every theorem about training or inference is
quantified over the backend.
-/

namespace MapLY

/-- A table cell: the source CSVs hold identifying strings (state,
district) and numeric crime counts; counts are modelled as rationals.
The model has no NaN cell: loaded tables are taken to be fully
populated, so `fillna(0)` is the identity here. -/
inductive Cell where
  | str (s : String)
  | num (q : ℚ)
deriving DecidableEq

/-- Numeric view of a cell, used by the arithmetic of
`engineer_features`; every column that arithmetic touches holds numeric
counts in the data, so the string case is immaterial. -/
def Cell.toQ : Cell → ℚ
  | .str _ => 0
  | .num q => q

/-- A pandas DataFrame: named columns and rows of cells (row-major). -/
structure Table where
  cols : List String
  rows : List (List Cell)
deriving DecidableEq

/-- Well-formedness: each row carries one cell per column. -/
def Table.WF (t : Table) : Prop :=
  ∀ r ∈ t.rows, r.length = t.cols.length

/-- Boolean column membership (`c in df.columns`). -/
def memB (c : String) : List String → Bool
  | [] => false
  | x :: xs => x = c || memB c xs

/-- Index of a named column, `none` when absent. -/
def colIdx? (cols : List String) (c : String) : Option Nat :=
  match cols with
  | [] => none
  | x :: xs => if x = c then some 0 else (colIdx? xs c).map (· + 1)

/-- Cell of a row at a named column (`df.iloc[i][c]`); `none` models the
KeyError / missing-column case. -/
def getCell (cols : List String) (row : List Cell) (c : String) : Option Cell :=
  (colIdx? cols c).bind (fun i => row[i]?)

/-- Numeric value of a row at a column, `0` when the column is absent
(only used where the code has already established presence, or where it
guards with `if c in df.columns`). -/
def rowVal (cols : List String) (row : List Cell) (c : String) : ℚ :=
  ((getCell cols row c).map Cell.toQ).getD 0

/-- Python exception conditions raised inside the pipeline. -/
inductive Err where
  | fileNotFound
  | keyError (col : String)
  | valueError
  | notFitted
  | attributeError
deriving DecidableEq

/-- The `str(e)` text that the orchestrator places into the error
envelope. -/
def Err.message : Err → String
  | .fileNotFound => "No valid CSV files found."
  | .keyError c => c ++ " not in index"
  | .valueError => "Found array with 0 sample(s)"
  | .notFitted => "This RobustScaler instance is not fitted yet."
  | .attributeError => "NoneType object has no attribute predict"

/-- The fixed rename table of `load_and_combine_datasets`. -/
def renameMap (c : String) : String :=
  if c = "State/ UT" then "STATE/UT"
  else if c = "District/ Area" then "DISTRICT"
  else if c = "Kidnapping & Abduction_Total" then "Kidnapping and Abduction"
  else if c = "Assault on Women with intent to outrage her Modesty_Total" then
    "Assault on women with intent to outrage her modesty"
  else if c = "Insult to the Modesty of Women_Total" then
    "Insult to modesty of Women"
  else if c = "Importation of Girls from Foreign Country" then
    "Importation of Girls"
  else c

/-- `df.rename(columns=rename_map)`. -/
def Table.rename (t : Table) : Table :=
  { t with cols := t.cols.map renameMap }

/-- Projection of one row to the named target columns (row-wise
`df[common_cols]`); a target column absent from `cols` is skipped, which
cannot happen for the common columns of well-formed sources. -/
def projectRow (cols : List String) (target : List String) (row : List Cell) :
    List Cell :=
  target.filterMap (fun c => getCell cols row c)

/-- Row deduplication keeping the first occurrence of each distinct
element (`DataFrame.drop_duplicates`), with an accumulator of already
kept elements. -/
def dropDup {α : Type} [DecidableEq α] (seen : List α) : List α → List α
  | [] => []
  | x :: xs => if x ∈ seen then dropDup seen xs else x :: dropDup (x :: seen) xs

/-- The canonical 7 crime categories
(`DataPreprocessor.crimes_against_women`). -/
def crimesAgainstWomen : List String :=
  ["Rape", "Insult to modesty of Women", "Kidnapping and Abduction",
   "Dowry Deaths", "Importation of Girls",
   "Cruelty by Husband or his Relatives",
   "Assault on women with intent to outrage her modesty"]

/-- A dataset location: either no file exists there (filtered out by
`os.path.exists`) or it parses to a table. -/
inductive SourceFile where
  | missing
  | table (t : Table)
deriving DecidableEq

/-- Tables obtained from the locations that exist. -/
def SourceFile.read? : SourceFile → Option Table
  | .missing => none
  | .table t => some t

/-- Common columns after renaming: the first frame's columns restricted
to those present in every frame.  The Python
`list(set.intersection(...))` leaves the order unspecified; the model
fixes the first frame's order, the column SET is the intersection. -/
def commonColumns : List Table → List String
  | [] => []
  | d :: ds => d.cols.filter (fun c => ds.all (fun t => memB c t.cols))

/-- Concatenation of all frames' rows under the common-column
projection (`pd.concat([df[common_cols] for df in dataframes])`). -/
def projectedRows (dfs : List Table) (common : List String) : List (List Cell) :=
  (dfs.map (fun t => t.rows.map (projectRow t.cols common))).flatten

/-- `DataFrame.drop_duplicates`: pandas returns an empty frame
unchanged (`if self.empty: return self.copy()`, where a frame is empty
when any axis has length 0 — notably a zero-column frame keeps its
duplicate rows); otherwise exact-duplicate rows are removed keeping the
first occurrence. -/
def Table.drop_duplicates (t : Table) : Table :=
  if t.cols.isEmpty || t.rows.isEmpty then t
  else { t with rows := dropDup [] t.rows }

/-- `DataPreprocessor.load_and_combine_datasets`: read the files that
exist, fail with `FileNotFoundError` when none does, rename columns,
restrict every frame to the common columns, concatenate, and drop
duplicate rows (with the pandas empty-frame short-circuit). -/
def load_and_combine_datasets (file_paths : List SourceFile) : Except Err Table :=
  let dataframes := (file_paths.filterMap SourceFile.read?).map Table.rename
  match dataframes with
  | [] => .error .fileNotFound
  | d :: ds =>
    let common := commonColumns (d :: ds)
    .ok (Table.drop_duplicates
      { cols := common, rows := projectedRows (d :: ds) common })

/-- Severity weights, in the insertion order of the Python dict. -/
def severityWeights : List (String × ℚ) :=
  [("Dowry Deaths", 10), ("Rape", 9), ("Importation of Girls", 8),
   ("Kidnapping and Abduction", 7),
   ("Cruelty by Husband or his Relatives", 5),
   ("Assault on women with intent to outrage her modesty", 3),
   ("Insult to modesty of Women", 2)]

/-- `Total_Women_Crimes`: sum of the 7 category counts of one row. -/
def totalWomenCrimes (cols : List String) (row : List Cell) : ℚ :=
  (crimesAgainstWomen.map (rowVal cols row)).sum

/-- `Domestic_Violence_Total` of one row. -/
def domesticViolenceTotal (cols : List String) (row : List Cell) : ℚ :=
  rowVal cols row "Dowry Deaths" +
    rowVal cols row "Cruelty by Husband or his Relatives"

/-- `Public_Safety_Total` of one row. -/
def publicSafetyTotal (cols : List String) (row : List Cell) : ℚ :=
  rowVal cols row "Rape" +
    rowVal cols row "Assault on women with intent to outrage her modesty" +
    rowVal cols row "Insult to modesty of Women"

/-- `Severity_Score` of one row: weighted sum over the categories
present in the table (`if c in df.columns`). -/
def severityScore (cols : List String) (row : List Cell) : ℚ :=
  ((severityWeights.filter (fun p => memB p.1 cols)).map
    (fun p => rowVal cols row p.1 * p.2)).sum

/-- One `MinMaxScaler` transform step: subtract the batch minimum and
divide by the batch range; sklearn replaces a zero range by 1
(`_handle_zeros_in_scale`), so a constant batch maps to 0. -/
def minmaxNormalize (lo hi x : ℚ) : ℚ :=
  (x - lo) / (if hi - lo = 0 then 1 else hi - lo)

/-- Minimum of a nonempty batch `s :: rest`. -/
def batchMin (s : ℚ) (rest : List ℚ) : ℚ := rest.foldl min s

/-- Maximum of a nonempty batch `s :: rest`. -/
def batchMax (s : ℚ) (rest : List ℚ) : ℚ := rest.foldl max s

/-- `Safety_Score` from a severity value and the batch bounds. -/
def safetyScore (lo hi sev : ℚ) : ℚ := 100 * (1 - minmaxNormalize lo hi sev)

/-- New-column assignment `df[name] = vals`: replaces an existing column
in place, otherwise appends the column on the right. -/
def Table.setCol (t : Table) (name : String) (vals : List ℚ) : Table :=
  match colIdx? t.cols name with
  | some i =>
    { cols := t.cols,
      rows := (t.rows.zip vals).map (fun p => p.1.set i (.num p.2)) }
  | none =>
    { cols := t.cols ++ [name],
      rows := (t.rows.zip vals).map (fun p => p.1 ++ [.num p.2]) }

/-- First of the 7 categories missing from the columns, if any
(`df[self.crimes_against_women]` raises `KeyError` on it). -/
def missingCategory (cols : List String) : Option String :=
  crimesAgainstWomen.find? (fun c => !(memB c cols))

/-- Names of the columns added by `engineer_features`, in assignment
order. -/
def engineeredNames : List String :=
  ["Total_Women_Crimes", "Domestic_Violence_Total", "Public_Safety_Total",
   "Severity_Score", "Safety_Score", "DV_to_Total_Ratio",
   "Public_to_Total_Ratio"]

/-- The `Severity_Score` column values of a table. -/
def sevList (df : Table) : List ℚ := df.rows.map (severityScore df.cols)

/-- Batch minimum of the severity column (`MinMaxScaler` data min);
junk 0 on the empty batch, which the pipeline guards against. -/
def sevLo (df : Table) : ℚ :=
  match sevList df with
  | [] => 0
  | s :: rest => batchMin s rest

/-- Batch maximum of the severity column (`MinMaxScaler` data max). -/
def sevHi (df : Table) : ℚ :=
  match sevList df with
  | [] => 0
  | s :: rest => batchMax s rest

/-- `DataPreprocessor.engineer_features`.  Fails with `KeyError` when
one of the 7 category columns is absent (raised by
`df[self.crimes_against_women]` before anything else), and with
`ValueError` on an empty table (`MinMaxScaler` refuses 0 samples);
`fillna(0)` is the identity since the cell model has no NaN. -/
def engineer_features (df : Table) : Except Err Table :=
  match missingCategory df.cols with
  | some c => .error (.keyError c)
  | none =>
    if df.rows.isEmpty then .error .valueError
    else
      .ok ((((((df.setCol
        "Total_Women_Crimes" (df.rows.map (totalWomenCrimes df.cols))).setCol
        "Domestic_Violence_Total"
          (df.rows.map (domesticViolenceTotal df.cols))).setCol
        "Public_Safety_Total" (df.rows.map (publicSafetyTotal df.cols))).setCol
        "Severity_Score" (sevList df)).setCol
        "Safety_Score"
          ((sevList df).map (safetyScore (sevLo df) (sevHi df)))).setCol
        "DV_to_Total_Ratio"
          (((df.rows.map (domesticViolenceTotal df.cols)).zip
            (df.rows.map (totalWomenCrimes df.cols))).map
              (fun p => p.1 / (p.2 + 1))) |>.setCol
        "Public_to_Total_Ratio"
          (((df.rows.map (publicSafetyTotal df.cols)).zip
            (df.rows.map (totalWomenCrimes df.cols))).map
              (fun p => p.1 / (p.2 + 1))))

/-- The cells that `engineer_features` appends to one row, in column
order of `engineeredNames`. -/
def engineeredCells (cols : List String) (lo hi : ℚ) (r : List Cell) :
    List Cell :=
  [.num (totalWomenCrimes cols r), .num (domesticViolenceTotal cols r),
   .num (publicSafetyTotal cols r), .num (severityScore cols r),
   .num (safetyScore lo hi (severityScore cols r)),
   .num (domesticViolenceTotal cols r / (totalWomenCrimes cols r + 1)),
   .num (publicSafetyTotal cols r / (totalWomenCrimes cols r + 1))]

/-- Final `Safety_Score` value of one row, relative to its table's
batch. -/
def safetyOf (df : Table) (r : List Cell) : ℚ :=
  safetyScore (sevLo df) (sevHi df) (severityScore df.cols r)

/-- Black-box fitted-estimator backend: `RobustScaler.fit` on a feature
matrix yields a row transform, `XGBRegressor.fit` on a scaled matrix and
a target vector yields a prediction function.  Claims about the model
hold for every backend. -/
structure MLBackend where
  fitScaler : List (List ℚ) → (List ℚ → List ℚ)
  fitRegressor : List (List ℚ) → List ℚ → (List ℚ → ℚ)

/-- `RiskScoreModel` state: the optional fitted scaler transform
(`none` = the fresh, unfitted `RobustScaler()`) and the optional
regressor (`None` before `train`). -/
structure RiskScoreModel where
  scaler : Option (List ℚ → List ℚ)
  model : Option (List ℚ → ℚ)

/-- The fixed feature list `self.features`. -/
def modelFeatures : List String :=
  ["Total_Women_Crimes", "DV_to_Total_Ratio", "Public_to_Total_Ratio"]

/-- `RiskScoreModel.__init__`: unfitted scaler, `model = None`. -/
def RiskScoreModel.init : RiskScoreModel := { scaler := none, model := none }

/-- Feature matrix `df[self.features]` as rows of rationals; `KeyError`
when a feature column is missing. -/
def featureMatrix (df : Table) : Except Err (List (List ℚ)) :=
  match modelFeatures.find? (fun c => !(memB c df.cols)) with
  | some c => .error (.keyError c)
  | none => .ok (df.rows.map (fun r => modelFeatures.map (rowVal df.cols r)))

/-- `RiskScoreModel.train`: select features and target, fit the scaler,
transform, fit the regressor on scaled features against the target.
Fitting on 0 samples raises `ValueError` in sklearn; there is no other
guard. -/
def train (backend : MLBackend) (_m : RiskScoreModel) (df : Table) :
    Except Err RiskScoreModel := do
  let X ← featureMatrix df
  if !(memB "Safety_Score" df.cols) then .error (.keyError "Safety_Score") else
  let y := df.rows.map (fun r => rowVal df.cols r "Safety_Score")
  if X.isEmpty then .error .valueError else
  let transform := backend.fitScaler X
  .ok { scaler := some transform,
        model := some (backend.fitRegressor (X.map transform) y) }

/-- `np.clip(score, 0, 100)`. -/
def clip0100 (q : ℚ) : ℚ := min (max q 0) 100

/-- `round(x, 2)`: rounding to 2 decimal places (the tie-breaking rule
is immaterial to every claim). -/
def round2 (q : ℚ) : ℚ := (round (100 * q) : ℤ) / 100

/-- Risk tier from the final (clipped, rounded) score. -/
def categorize (s : ℚ) : String :=
  if s ≥ 80 then "Low Risk"
  else if s ≥ 60 then "Moderate Risk"
  else "High Risk"

/-- One output record of `get_risk_levels`. -/
structure RegionResult where
  state : Cell
  district : Cell
  safety_score : ℚ
  risk_category : String
deriving DecidableEq

/-- `RiskScoreModel.get_risk_levels`: transform the feature matrix with
the fitted scaler (`NotFittedError` when `train` never ran), predict
(`AttributeError` on the `None` model), then build one record per row in
row order, clipping to `[0, 100]`, rounding to 2 decimals and
categorizing the final score. -/
def get_risk_levels (m : RiskScoreModel) (df : Table) :
    Except Err (List RegionResult) := do
  let X ← featureMatrix df
  match m.scaler with
  | none => .error .notFitted
  | some transform =>
    match m.model with
    | none => .error .attributeError
    | some predict =>
      let predictions := (X.map transform).map predict
      if !(memB "STATE/UT" df.cols) then .error (.keyError "STATE/UT")
      else if !(memB "DISTRICT" df.cols) then .error (.keyError "DISTRICT")
      else
        .ok ((df.rows.zip predictions).map (fun p =>
          let final := round2 (clip0100 p.2)
          { state := (getCell df.cols p.1 "STATE/UT").getD (.str ""),
            district := (getCell df.cols p.1 "DISTRICT").getD (.str ""),
            safety_score := final,
            risk_category := categorize final }))

/-- The uniform success / error envelope of the orchestrator. -/
inductive Envelope where
  | success (total_regions : Nat) (data : List RegionResult)
  | error (message : String)
deriving DecidableEq

/-- The body of the `try` block of `RiskScoreAPI.get_navigation_data`:
reconcile, engineer, train, infer, in sequence. -/
def runPipeline (backend : MLBackend) (file_paths : List SourceFile) :
    Except Err (List RegionResult) := do
  let raw ← load_and_combine_datasets file_paths
  let processed ← engineer_features raw
  let trained ← train backend RiskScoreModel.init processed
  get_risk_levels trained processed

/-- `RiskScoreAPI.get_navigation_data`: every raised error is caught and
converted to the error envelope; a successful run reports
`total_regions` as the length of the data list. -/
def get_navigation_data (backend : MLBackend) (file_paths : List SourceFile) :
    Envelope :=
  match runPipeline backend file_paths with
  | .ok risk_data => .success risk_data.length risk_data
  | .error e => .error e.message

/-- Whether a fallible computation succeeded. -/
def exceptIsOk {ε α : Type} : Except ε α → Bool
  | .ok _ => true
  | .error _ => false

/-- A concrete backend for witnesses: identity scaler, constant
regressor. -/
def constBackend : MLBackend :=
  { fitScaler := fun _ => fun v => v,
    fitRegressor := fun _ _ => fun _ => 50 }

/-- Column layout of the full canonical schema: keys plus the 7
categories. -/
def fullCols : List String :=
  ["STATE/UT", "DISTRICT", "Rape", "Insult to modesty of Women",
   "Kidnapping and Abduction", "Dowry Deaths", "Importation of Girls",
   "Cruelty by Husband or his Relatives",
   "Assault on women with intent to outrage her modesty"]

/-- The end-to-end scenario table of the spec: three regions of one
source, `Rape = [10, 0, 50]`, every other category 0. -/
def exTable : Table :=
  { cols := fullCols,
    rows := [[.str "S1", .str "D1", .num 10, .num 0, .num 0, .num 0,
              .num 0, .num 0, .num 0],
             [.str "S1", .str "D2", .num 0, .num 0, .num 0, .num 0,
              .num 0, .num 0, .num 0],
             [.str "S1", .str "D3", .num 50, .num 0, .num 0, .num 0,
              .num 0, .num 0, .num 0]] }

/-- A one-row source with the full schema. -/
def tblFull : Table :=
  { cols := fullCols,
    rows := [[.str "A", .str "a", .num 1, .num 1, .num 1, .num 1,
              .num 1, .num 1, .num 1]] }

/-- A one-row source lacking the `Rape` column. -/
def tblNoRape : Table :=
  { cols := ["STATE/UT", "DISTRICT", "Insult to modesty of Women",
             "Kidnapping and Abduction", "Dowry Deaths",
             "Importation of Girls",
             "Cruelty by Husband or his Relatives",
             "Assault on women with intent to outrage her modesty"],
    rows := [[.str "B", .str "b", .num 2, .num 2, .num 2, .num 2,
              .num 2, .num 2]] }

/-- The table reconciled from `tblFull` and `tblNoRape`: their common
columns (everything but `Rape`) and both projected rows. -/
def tblReconciled : Table :=
  { cols := ["STATE/UT", "DISTRICT", "Insult to modesty of Women",
             "Kidnapping and Abduction", "Dowry Deaths",
             "Importation of Girls",
             "Cruelty by Husband or his Relatives",
             "Assault on women with intent to outrage her modesty"],
    rows := [[.str "A", .str "a", .num 1, .num 1, .num 1, .num 1,
              .num 1, .num 1],
             [.str "B", .str "b", .num 2, .num 2, .num 2, .num 2,
              .num 2, .num 2]] }

/-- A one-column source sharing no column with `srcY`. -/
def srcX : Table := { cols := ["X"], rows := [[.num 1]] }

/-- A one-column source sharing no column with `srcX`. -/
def srcY : Table := { cols := ["Y"], rows := [[.num 2]] }

/-- Source A of the schema-intersection scenario: columns X, Y, Z. -/
def srcXYZ : Table :=
  { cols := ["X", "Y", "Z"], rows := [[.num 1, .num 2, .num 3]] }

/-- Source B of the schema-intersection scenario: columns X, Y. -/
def srcXY : Table :=
  { cols := ["X", "Y"], rows := [[.num 4, .num 5]] }

/-- A one-row table shaped like an engineered table (model features
plus target), for exercising `train` on fewer than 2 rows. -/
def tblOneRow : Table :=
  { cols := ["Total_Women_Crimes", "DV_to_Total_Ratio",
             "Public_to_Total_Ratio", "Safety_Score"],
    rows := [[.num 1, .num 0, .num 0, .num 50]] }

/-- A two-row engineered-shape table whose `Safety_Score` target is
constant (degenerate). -/
def tblConstTarget : Table :=
  { cols := ["Total_Women_Crimes", "DV_to_Total_Ratio",
             "Public_to_Total_Ratio", "Safety_Score"],
    rows := [[.num 1, .num 0, .num 0, .num 70],
             [.num 2, .num 0, .num 0, .num 70]] }

/-- A one-row table carrying the model features and the key columns,
for inference witnesses. -/
def tblInfer : Table :=
  { cols := ["STATE/UT", "DISTRICT", "Total_Women_Crimes",
             "DV_to_Total_Ratio", "Public_to_Total_Ratio"],
    rows := [[.str "S", .str "D", .num 5, .num 0, .num 1]] }

/-- The table reconciled from `srcXYZ` and `srcXY`: the column
intersection X, Y and both projected rows. -/
def tblXY : Table :=
  { cols := ["X", "Y"], rows := [[.num 1, .num 2], [.num 4, .num 5]] }

/-- The zero-column, two-row table reconciled from the disjoint sources
`srcX` and `srcY`: pandas `drop_duplicates` short-circuits on the empty
frame, so both duplicate empty projected rows are kept. -/
def tblZeroCols : Table := { cols := [], rows := [[], []] }

/-- A single region reporting zero crimes in every category. -/
def tblAllZero : Table :=
  { cols := fullCols,
    rows := [[.str "Z", .str "z", .num 0, .num 0, .num 0, .num 0,
              .num 0, .num 0, .num 0]] }

/-! Helper lemmas about the embedding. -/

theorem memB_iff {c : String} : ∀ {l : List String}, memB c l = true ↔ c ∈ l := by
  intro l
  induction l with
  | nil => simp [memB]
  | cons x xs ih =>
    simp only [memB, Bool.or_eq_true, decide_eq_true_eq, ih, List.mem_cons]
    constructor
    · rintro (h | h)
      · exact Or.inl h.symm
      · exact Or.inr h
    · rintro (h | h)
      · exact Or.inl h.symm
      · exact Or.inr h

theorem colIdx?_eq_none {c : String} :
    ∀ {cols : List String}, c ∉ cols → colIdx? cols c = none := by
  intro cols
  induction cols with
  | nil => intro _; rfl
  | cons x xs ih =>
    intro h
    simp only [List.mem_cons, not_or] at h
    have hxc : ¬(x = c) := fun hx => h.1 hx.symm
    simp only [colIdx?, if_neg hxc, ih h.2, Option.map_none']

theorem colIdx?_append {names : List String} {c : String} :
    ∀ {cols : List String}, c ∉ cols →
      colIdx? (cols ++ names) c = (colIdx? names c).map (· + cols.length) := by
  intro cols
  induction cols with
  | nil =>
    intro _
    cases h : colIdx? names c <;> simp [h]
  | cons x xs ih =>
    intro h
    simp only [List.mem_cons, not_or] at h
    have hxc : ¬(x = c) := fun hx => h.1 hx.symm
    simp only [List.cons_append, colIdx?, if_neg hxc, List.append_eq, ih h.2,
      Option.map_map, List.length_cons]
    cases h2 : colIdx? names c with
    | none => rfl
    | some i =>
      simp only [Option.map_some', Function.comp]
      rw [Nat.add_assoc]

theorem getCell_append {cols names : List String} {r cells : List Cell}
    {c : String} (hc : c ∉ cols) (hr : r.length = cols.length) :
    getCell (cols ++ names) (r ++ cells) c = getCell names cells c := by
  unfold getCell
  rw [colIdx?_append hc]
  cases h : colIdx? names c with
  | none => rfl
  | some i =>
    simp only [Option.map_some', Option.some_bind]
    rw [List.getElem?_append_right (by omega)]
    congr 1
    omega

theorem map_zip_map {α β γ δ : Type} (e : α → β) (g : α → γ) (k : β → γ → δ) :
    ∀ l : List α,
      ((l.map e).zip (l.map g)).map (fun p => k p.1 p.2) =
        l.map (fun a => k (e a) (g a)) := by
  intro l
  induction l with
  | nil => rfl
  | cons x xs ih => simp [ih]

theorem setCol_fresh {t : Table} {n : String} (h : n ∉ t.cols) (vals : List ℚ) :
    t.setCol n vals =
      { cols := t.cols ++ [n],
        rows := (t.rows.zip vals).map (fun p => p.1 ++ [Cell.num p.2]) } := by
  unfold Table.setCol
  rw [colIdx?_eq_none h]

theorem setCol_map_fresh {cols : List String} {n : String} (h : n ∉ cols)
    (orig : List (List Cell)) (e : List Cell → List Cell)
    (g : List Cell → ℚ) :
    Table.setCol { cols := cols, rows := orig.map e } n (orig.map g) =
      { cols := cols ++ [n],
        rows := orig.map (fun r => e r ++ [Cell.num (g r)]) } := by
  rw [setCol_fresh h]
  exact congrArg (fun rs => Table.mk (cols ++ [n]) rs)
    (map_zip_map e g (fun b q => b ++ [Cell.num q]) orig)

theorem setCol_self_fresh {t : Table} {n : String} (h : n ∉ t.cols)
    (g : List Cell → ℚ) :
    t.setCol n (t.rows.map g) =
      { cols := t.cols ++ [n],
        rows := t.rows.map (fun r => r ++ [Cell.num (g r)]) } := by
  have h2 := setCol_map_fresh h t.rows id g
  simpa using h2

theorem dropDup_sublist {α : Type} [DecidableEq α] :
    ∀ (l seen : List α), (dropDup seen l).Sublist l := by
  intro l
  induction l with
  | nil => intro seen; exact List.Sublist.refl _
  | cons x xs ih =>
    intro seen
    by_cases hx : x ∈ seen
    · simp only [dropDup, if_pos hx]
      exact (ih seen).cons x
    · simp only [dropDup, if_neg hx]
      exact (ih (x :: seen)).cons₂ x

theorem mem_dropDup {α : Type} [DecidableEq α] {x : α} :
    ∀ (l seen : List α), x ∈ dropDup seen l ↔ x ∈ l ∧ x ∉ seen := by
  intro l
  induction l with
  | nil => intro seen; simp [dropDup]
  | cons y ys ih =>
    intro seen
    by_cases hy : y ∈ seen
    · simp only [dropDup, if_pos hy, ih, List.mem_cons]
      constructor
      · exact fun h => ⟨Or.inr h.1, h.2⟩
      · rintro ⟨hxy | hm, hs⟩
        · exact absurd (hxy ▸ hy) hs
        · exact ⟨hm, hs⟩
    · simp only [dropDup, if_neg hy, List.mem_cons, ih]
      constructor
      · rintro (hxy | ⟨hm, hs⟩)
        · exact ⟨Or.inl hxy, hxy ▸ hy⟩
        · simp only [List.mem_cons, not_or] at hs
          exact ⟨Or.inr hm, hs.2⟩
      · rintro ⟨hxy | hm, hs⟩
        · exact Or.inl hxy
        · by_cases hxy2 : x = y
          · exact Or.inl hxy2
          · refine Or.inr ⟨hm, ?_⟩
            simp only [List.mem_cons, not_or]
            exact ⟨hxy2, hs⟩

theorem dropDup_nodup {α : Type} [DecidableEq α] :
    ∀ (l seen : List α), (dropDup seen l).Nodup := by
  intro l
  induction l with
  | nil => intro seen; simp [dropDup]
  | cons x xs ih =>
    intro seen
    by_cases hx : x ∈ seen
    · simpa only [dropDup, if_pos hx] using ih seen
    · simp only [dropDup, if_neg hx, List.nodup_cons]
      refine ⟨fun hmem => ?_, ih (x :: seen)⟩
      exact ((mem_dropDup xs (x :: seen)).mp hmem).2 (List.mem_cons_self x seen)

theorem batchMin_le (s : ℚ) :
    ∀ (l : List ℚ), ∀ x ∈ s :: l, batchMin s l ≤ x := by
  intro l
  induction l generalizing s with
  | nil =>
    intro x hx
    simp only [List.mem_singleton] at hx
    exact le_of_eq (hx ▸ rfl)
  | cons y ys ih =>
    intro x hx
    have hstep : batchMin s (y :: ys) = batchMin (min s y) ys := rfl
    have hhead : batchMin (min s y) ys ≤ min s y :=
      ih (min s y) (min s y) (List.mem_cons_self _ _)
    rcases List.mem_cons.mp hx with h1 | hx2
    · rw [hstep, h1]
      exact le_trans hhead (min_le_left s y)
    · rcases List.mem_cons.mp hx2 with h2 | h3
      · rw [hstep, h2]
        exact le_trans hhead (min_le_right s y)
      · rw [hstep]
        exact ih (min s y) x (List.mem_cons_of_mem _ h3)

theorem le_batchMax (s : ℚ) :
    ∀ (l : List ℚ), ∀ x ∈ s :: l, x ≤ batchMax s l := by
  intro l
  induction l generalizing s with
  | nil =>
    intro x hx
    simp only [List.mem_singleton] at hx
    exact le_of_eq (hx ▸ rfl)
  | cons y ys ih =>
    intro x hx
    have hstep : batchMax s (y :: ys) = batchMax (max s y) ys := rfl
    rcases List.mem_cons.mp hx with h1 | hx2
    · rw [hstep, h1]
      exact le_trans (le_max_left s y) (ih (max s y) (max s y) (List.mem_cons_self _ _))
    · rcases List.mem_cons.mp hx2 with h2 | h3
      · rw [hstep, h2]
        exact le_trans (le_max_right s y) (ih (max s y) (max s y) (List.mem_cons_self _ _))
      · rw [hstep]
        exact ih (max s y) x (List.mem_cons_of_mem _ h3)

theorem batchMin_mem (s : ℚ) :
    ∀ (l : List ℚ), batchMin s l ∈ s :: l := by
  intro l
  induction l generalizing s with
  | nil => exact List.mem_singleton.mpr rfl
  | cons y ys ih =>
    have hstep : batchMin s (y :: ys) = batchMin (min s y) ys := rfl
    rw [hstep]
    rcases List.mem_cons.mp (ih (min s y)) with h1 | h2
    · rcases min_choice s y with hc | hc
      · rw [h1, hc]
        exact List.mem_cons_self s (y :: ys)
      · rw [h1, hc]
        exact List.mem_cons_of_mem s (List.mem_cons_self y ys)
    · exact List.mem_cons_of_mem s (List.mem_cons_of_mem y h2)

theorem batchMax_mem (s : ℚ) :
    ∀ (l : List ℚ), batchMax s l ∈ s :: l := by
  intro l
  induction l generalizing s with
  | nil => exact List.mem_singleton.mpr rfl
  | cons y ys ih =>
    have hstep : batchMax s (y :: ys) = batchMax (max s y) ys := rfl
    rw [hstep]
    rcases List.mem_cons.mp (ih (max s y)) with h1 | h2
    · rcases max_choice s y with hc | hc
      · rw [h1, hc]
        exact List.mem_cons_self s (y :: ys)
      · rw [h1, hc]
        exact List.mem_cons_of_mem s (List.mem_cons_self y ys)
    · exact List.mem_cons_of_mem s (List.mem_cons_of_mem y h2)

theorem ok_bind {ε α β : Type} (a : α) (f : α → Except ε β) :
    (Except.ok a : Except ε α) >>= f = f a := rfl

theorem error_bind {ε α β : Type} (e : ε) (f : α → Except ε β) :
    (Except.error e : Except ε α) >>= f = .error e := rfl

theorem engineer_features_ok (df : Table)
    (h7 : missingCategory df.cols = none) (hne : df.rows ≠ [])
    (hfresh : ∀ n ∈ engineeredNames, n ∉ df.cols) :
    engineer_features df =
      .ok { cols := df.cols ++ engineeredNames,
            rows := df.rows.map (fun r =>
              r ++ engineeredCells df.cols (sevLo df) (sevHi df) r) } := by
  have hf1 : "Total_Women_Crimes" ∉ df.cols := hfresh _ (by simp [engineeredNames])
  have hf2 : "Domestic_Violence_Total" ∉ df.cols :=
    hfresh _ (by simp [engineeredNames])
  have hf3 : "Public_Safety_Total" ∉ df.cols := hfresh _ (by simp [engineeredNames])
  have hf4 : "Severity_Score" ∉ df.cols := hfresh _ (by simp [engineeredNames])
  have hf5 : "Safety_Score" ∉ df.cols := hfresh _ (by simp [engineeredNames])
  have hf6 : "DV_to_Total_Ratio" ∉ df.cols := hfresh _ (by simp [engineeredNames])
  have hf7 : "Public_to_Total_Ratio" ∉ df.cols :=
    hfresh _ (by simp [engineeredNames])
  have hg2 : "Domestic_Violence_Total" ∉ df.cols ++ ["Total_Women_Crimes"] := by
    simp [List.mem_append, hf2]
  have hg3 : "Public_Safety_Total" ∉
      (df.cols ++ ["Total_Women_Crimes"]) ++ ["Domestic_Violence_Total"] := by
    simp [List.mem_append, hf3]
  have hg4 : "Severity_Score" ∉
      ((df.cols ++ ["Total_Women_Crimes"]) ++ ["Domestic_Violence_Total"]) ++
        ["Public_Safety_Total"] := by
    simp [List.mem_append, hf4]
  have hg5 : "Safety_Score" ∉
      (((df.cols ++ ["Total_Women_Crimes"]) ++ ["Domestic_Violence_Total"]) ++
        ["Public_Safety_Total"]) ++ ["Severity_Score"] := by
    simp [List.mem_append, hf5]
  have hg6 : "DV_to_Total_Ratio" ∉
      ((((df.cols ++ ["Total_Women_Crimes"]) ++ ["Domestic_Violence_Total"]) ++
        ["Public_Safety_Total"]) ++ ["Severity_Score"]) ++ ["Safety_Score"] := by
    simp [List.mem_append, hf6]
  have hg7 : "Public_to_Total_Ratio" ∉
      (((((df.cols ++ ["Total_Women_Crimes"]) ++ ["Domestic_Violence_Total"]) ++
        ["Public_Safety_Total"]) ++ ["Severity_Score"]) ++ ["Safety_Score"]) ++
        ["DV_to_Total_Ratio"] := by
    simp [List.mem_append, hf7]
  have hrows : ¬df.rows.isEmpty = true := by
    cases hr : df.rows with
    | nil => exact absurd hr hne
    | cons a l => simp [hr]
  simp only [engineer_features, h7]
  rw [if_neg hrows]
  simp only [sevList]
  rw [List.map_map]
  rw [map_zip_map (domesticViolenceTotal df.cols) (totalWomenCrimes df.cols)
    (fun a b => a / (b + 1)) df.rows]
  rw [map_zip_map (publicSafetyTotal df.cols) (totalWomenCrimes df.cols)
    (fun a b => a / (b + 1)) df.rows]
  rw [setCol_self_fresh hf1]
  rw [setCol_map_fresh hg2]
  rw [setCol_map_fresh hg3]
  rw [setCol_map_fresh hg4]
  rw [setCol_map_fresh hg5]
  rw [setCol_map_fresh hg6]
  rw [setCol_map_fresh hg7]
  simp [engineeredNames, engineeredCells, List.append_assoc, Function.comp]

theorem sevLo_le_of_mem {df : Table} {r : List Cell} (h : r ∈ df.rows) :
    sevLo df ≤ severityScore df.cols r := by
  unfold sevLo sevList
  cases hr : df.rows with
  | nil => rw [hr] at h; cases h
  | cons a l =>
    rw [hr] at h
    simp only [List.map_cons]
    refine batchMin_le _ _ _ ?_
    rcases List.mem_cons.mp h with h1 | h2
    · rw [h1]; exact List.mem_cons_self _ _
    · exact List.mem_cons_of_mem _ (List.mem_map_of_mem _ h2)

theorem le_sevHi_of_mem {df : Table} {r : List Cell} (h : r ∈ df.rows) :
    severityScore df.cols r ≤ sevHi df := by
  unfold sevHi sevList
  cases hr : df.rows with
  | nil => rw [hr] at h; cases h
  | cons a l =>
    rw [hr] at h
    simp only [List.map_cons]
    refine le_batchMax _ _ _ ?_
    rcases List.mem_cons.mp h with h1 | h2
    · rw [h1]; exact List.mem_cons_self _ _
    · exact List.mem_cons_of_mem _ (List.mem_map_of_mem _ h2)

theorem sevLo_mem {df : Table} (hne : df.rows ≠ []) :
    ∃ r0 ∈ df.rows, sevLo df = severityScore df.cols r0 := by
  unfold sevLo sevList
  cases hr : df.rows with
  | nil => exact absurd hr hne
  | cons a l =>
    simp only [List.map_cons]
    have hm := batchMin_mem (severityScore df.cols a) (l.map (severityScore df.cols))
    rcases List.mem_cons.mp hm with h1 | h2
    · exact ⟨a, List.mem_cons_self _ _, h1⟩
    · rcases List.mem_map.mp h2 with ⟨r0, hr0, he⟩
      exact ⟨r0, List.mem_cons_of_mem _ hr0, he.symm⟩

theorem sevLo_le_sevHi {df : Table} (hne : df.rows ≠ []) :
    sevLo df ≤ sevHi df := by
  rcases sevLo_mem hne with ⟨r0, hr0, he⟩
  rw [he]
  exact le_sevHi_of_mem hr0

theorem safetyScore_bounds {lo hi sev : ℚ} (h1 : lo ≤ sev) (h2 : sev ≤ hi) :
    0 ≤ safetyScore lo hi sev ∧ safetyScore lo hi sev ≤ 100 := by
  unfold safetyScore minmaxNormalize
  by_cases hd : hi - lo = 0
  · rw [if_pos hd]
    have hs : sev = lo := by
      have : hi = lo := by linarith [sub_eq_zero.mp hd]
      linarith
    rw [hs]
    norm_num
  · rw [if_neg hd]
    have hpos : 0 < hi - lo := lt_of_le_of_ne (by linarith) (Ne.symm hd)
    have h01 : 0 ≤ (sev - lo) / (hi - lo) := div_nonneg (by linarith) (le_of_lt hpos)
    have h11 : (sev - lo) / (hi - lo) ≤ 1 := by
      rw [div_le_one hpos]; linarith
    constructor <;> linarith

theorem safetyScore_at_lo (lo hi : ℚ) : safetyScore lo hi lo = 100 := by
  unfold safetyScore minmaxNormalize
  simp

theorem minmaxNormalize_at_lo (lo hi : ℚ) : minmaxNormalize lo hi lo = 0 := by
  unfold minmaxNormalize
  simp

theorem safetyScore_anti {lo hi a b : ℚ} (hlohi : lo ≤ hi) (hab : a ≤ b) :
    safetyScore lo hi b ≤ safetyScore lo hi a := by
  unfold safetyScore minmaxNormalize
  by_cases hd : hi - lo = 0
  · rw [if_pos hd]
    simp only [div_one]
    linarith
  · rw [if_neg hd]
    have hpos : 0 < hi - lo := lt_of_le_of_ne (by linarith) (Ne.symm hd)
    have h := (div_le_div_iff_of_pos_right hpos).mpr (by linarith : a - lo ≤ b - lo)
    linarith

theorem getCell_engineered_safety (cols : List String) (lo hi : ℚ)
    (r : List Cell) :
    getCell engineeredNames (engineeredCells cols lo hi r) "Safety_Score" =
      some (Cell.num (safetyScore lo hi (severityScore cols r))) := rfl

theorem getCell_engineered_dvr (cols : List String) (lo hi : ℚ)
    (r : List Cell) :
    getCell engineeredNames (engineeredCells cols lo hi r) "DV_to_Total_Ratio" =
      some (Cell.num (domesticViolenceTotal cols r /
        (totalWomenCrimes cols r + 1))) := rfl

theorem getCell_engineered_psr (cols : List String) (lo hi : ℚ)
    (r : List Cell) :
    getCell engineeredNames (engineeredCells cols lo hi r)
        "Public_to_Total_Ratio" =
      some (Cell.num (publicSafetyTotal cols r /
        (totalWomenCrimes cols r + 1))) := rfl

theorem zip_map_self {α γ δ : Type} (g : α → γ) (k : α × γ → δ) :
    ∀ l : List α, (l.zip (l.map g)).map k = l.map (fun a => k (a, g a)) := by
  intro l
  induction l with
  | nil => rfl
  | cons x xs ih => simp [ih]

theorem featureMatrix_ok {df : Table}
    (hfeat : ∀ c ∈ modelFeatures, c ∈ df.cols) :
    featureMatrix df =
      .ok (df.rows.map (fun r => modelFeatures.map (rowVal df.cols r))) := by
  unfold featureMatrix
  have hnone : modelFeatures.find? (fun c => !(memB c df.cols)) = none := by
    apply List.find?_eq_none.mpr
    intro x hx
    simp [memB_iff.mpr (hfeat x hx)]
  rw [hnone]

theorem clip0100_bounds (q : ℚ) : 0 ≤ clip0100 q ∧ clip0100 q ≤ 100 := by
  unfold clip0100
  constructor
  · exact le_min (le_max_right q 0) (by norm_num)
  · exact min_le_right _ _

theorem categorize_spec (s : ℚ) :
    (categorize s = "Low Risk" ↔ 80 ≤ s) ∧
    (categorize s = "Moderate Risk" ↔ 60 ≤ s ∧ s < 80) ∧
    (categorize s = "High Risk" ↔ s < 60) := by
  unfold categorize
  split_ifs with h1 h2
  · refine ⟨⟨fun _ => h1, fun _ => rfl⟩, ?_, ?_⟩
    · constructor
      · intro h; exact absurd h (by decide)
      · intro h; exact absurd h.2 (not_lt.mpr h1)
    · constructor
      · intro h; exact absurd h (by decide)
      · intro h; linarith
  · refine ⟨?_, ⟨fun _ => ⟨h2, not_le.mp h1⟩, fun _ => rfl⟩, ?_⟩
    · constructor
      · intro h; exact absurd h (by decide)
      · intro h; exact absurd h h1
    · constructor
      · intro h; exact absurd h (by decide)
      · intro h; linarith
  · refine ⟨?_, ?_, ⟨fun _ => not_le.mp h2, fun _ => rfl⟩⟩
    · constructor
      · intro h; exact absurd h (by decide)
      · intro h; exact absurd h h1
    · constructor
      · intro h; exact absurd h (by decide)
      · rintro ⟨h60, _⟩; exact absurd h60 h2

theorem mem_commonColumns {c : String} {d : Table} {ds : List Table} :
    c ∈ commonColumns (d :: ds) ↔ ∀ u ∈ d :: ds, c ∈ u.cols := by
  unfold commonColumns
  rw [List.mem_filter]
  constructor
  · rintro ⟨hc, hall⟩
    intro u hu
    rcases List.mem_cons.mp hu with h1 | h2
    · rw [h1]; exact hc
    · exact memB_iff.mp (List.all_eq_true.mp hall u h2)
  · intro hall
    refine ⟨hall d (List.mem_cons_self _ _), ?_⟩
    apply List.all_eq_true.mpr
    intro u hu
    exact memB_iff.mpr (hall u (List.mem_cons_of_mem _ hu))

theorem isEmpty_eq_false_of_ne {α : Type} {l : List α} (h : l ≠ []) :
    l.isEmpty = false := by
  cases l with
  | nil => exact absurd rfl h
  | cons a t => rfl

theorem drop_duplicates_cols (t : Table) :
    (Table.drop_duplicates t).cols = t.cols := by
  unfold Table.drop_duplicates
  split <;> rfl

theorem drop_duplicates_rows_of_cols_ne {t : Table} (hc : t.cols ≠ []) :
    (Table.drop_duplicates t).rows = dropDup [] t.rows := by
  unfold Table.drop_duplicates
  by_cases hr : t.rows = []
  · rw [if_pos (by simp [hr])]
    rw [hr]
    rfl
  · rw [if_neg (by simp [isEmpty_eq_false_of_ne hc, isEmpty_eq_false_of_ne hr])]

theorem drop_duplicates_rows_of_cols_eq_nil {t : Table} (hc : t.cols = []) :
    (Table.drop_duplicates t).rows = t.rows := by
  unfold Table.drop_duplicates
  rw [if_pos (by simp [hc])]

theorem load_ok_shape {fps : List SourceFile} {t : Table}
    (h : load_and_combine_datasets fps = .ok t) :
    ∃ d ds, (fps.filterMap SourceFile.read?).map Table.rename = d :: ds ∧
      t = Table.drop_duplicates
        { cols := commonColumns (d :: ds),
          rows := projectedRows (d :: ds) (commonColumns (d :: ds)) } := by
  cases hdfs : (fps.filterMap SourceFile.read?).map Table.rename with
  | nil =>
    exfalso
    simp only [load_and_combine_datasets, hdfs] at h
    exact Except.noConfusion h
  | cons d ds =>
    refine ⟨d, ds, rfl, ?_⟩
    simp only [load_and_combine_datasets, hdfs, Except.ok.injEq] at h
    exact h.symm

/-! Claim theorems. -/

/-- C2: on every non-empty engineered batch, each row's `Safety_Score`
is `100 × (1 − minmax_normalize(Severity_Score))` with the bounds taken
over the current batch only; every score lies in `[0, 100]`, a row at
the batch-minimum severity scores exactly 100, and a row at the
batch-maximum severity scores lowest. -/
theorem c2_safety_score_batch_minmax (df : Table)
    (h7 : missingCategory df.cols = none)
    (hfresh : ∀ n ∈ engineeredNames, n ∉ df.cols)
    (hwf : Table.WF df) (hne : df.rows ≠ []) :
    ∃ out, engineer_features df = .ok out ∧
      out.rows = df.rows.map (fun r =>
        r ++ engineeredCells df.cols (sevLo df) (sevHi df) r) ∧
      (∀ r ∈ df.rows,
        getCell out.cols (r ++ engineeredCells df.cols (sevLo df) (sevHi df) r)
            "Safety_Score" =
          some (Cell.num (100 * (1 - minmaxNormalize (sevLo df) (sevHi df)
            (severityScore df.cols r))))) ∧
      (∀ r ∈ df.rows, 0 ≤ safetyOf df r ∧ safetyOf df r ≤ 100) ∧
      (∀ r ∈ df.rows, severityScore df.cols r = sevLo df →
        safetyOf df r = 100) ∧
      (∀ r ∈ df.rows, ∀ r2 ∈ df.rows, severityScore df.cols r = sevHi df →
        safetyOf df r ≤ safetyOf df r2) := by
  refine ⟨_, engineer_features_ok df h7 hne hfresh, rfl, ?_, ?_, ?_, ?_⟩
  · intro r hr
    rw [getCell_append (hfresh _ (by simp [engineeredNames])) (hwf r hr)]
    exact getCell_engineered_safety _ _ _ _
  · intro r hr
    exact safetyScore_bounds (sevLo_le_of_mem hr) (le_sevHi_of_mem hr)
  · intro r _ hlo
    unfold safetyOf
    rw [hlo]
    exact safetyScore_at_lo _ _
  · intro r _ r2 hr2 hhi
    unfold safetyOf
    rw [hhi]
    exact safetyScore_anti (sevLo_le_sevHi hne) (le_sevHi_of_mem hr2)

/-- Witness for C2 at the end-to-end scenario table (`Rape = [10,0,50]`,
everything else 0): the conclusion holds, the `Rape = 0` region scores
exactly 100, the `Rape = 50` region scores lowest (0 here), and the
`Rape = 10` region scores 80. -/
theorem c2_witness :
    (∃ out, engineer_features exTable = .ok out ∧
      out.rows = exTable.rows.map (fun r =>
        r ++ engineeredCells exTable.cols (sevLo exTable) (sevHi exTable) r) ∧
      (∀ r ∈ exTable.rows,
        getCell out.cols
            (r ++ engineeredCells exTable.cols (sevLo exTable) (sevHi exTable) r)
            "Safety_Score" =
          some (Cell.num (100 * (1 - minmaxNormalize (sevLo exTable)
            (sevHi exTable) (severityScore exTable.cols r))))) ∧
      (∀ r ∈ exTable.rows, 0 ≤ safetyOf exTable r ∧ safetyOf exTable r ≤ 100) ∧
      (∀ r ∈ exTable.rows, severityScore exTable.cols r = sevLo exTable →
        safetyOf exTable r = 100) ∧
      (∀ r ∈ exTable.rows, ∀ r2 ∈ exTable.rows,
        severityScore exTable.cols r = sevHi exTable →
        safetyOf exTable r ≤ safetyOf exTable r2)) ∧
    safetyOf exTable (exTable.rows.getD 0 []) = 80 ∧
    safetyOf exTable (exTable.rows.getD 1 []) = 100 ∧
    safetyOf exTable (exTable.rows.getD 2 []) = 0 :=
  ⟨c2_safety_score_batch_minmax exTable (by decide) (by decide)
    (by unfold Table.WF; decide) (by decide),
   by
    simp [safetyOf, sevLo, sevHi, sevList, severityScore, severityWeights,
      memB, rowVal, getCell, colIdx?, exTable, fullCols, Cell.toQ, batchMin,
      batchMax, safetyScore, minmaxNormalize, min_def, max_def]
    norm_num,
   by
    simp [safetyOf, sevLo, sevHi, sevList, severityScore, severityWeights,
      memB, rowVal, getCell, colIdx?, exTable, fullCols, Cell.toQ, batchMin,
      batchMax, safetyScore, minmaxNormalize, min_def, max_def],
   by
    simp [safetyOf, sevLo, sevHi, sevList, severityScore, severityWeights,
      memB, rowVal, getCell, colIdx?, exTable, fullCols, Cell.toQ, batchMin,
      batchMax, safetyScore, minmaxNormalize, min_def, max_def]
    norm_num⟩

/-- C4: every engineered row's ratio features are
`Domestic_Violence_Total / (Total + 1)` and
`Public_Safety_Total / (Total + 1)`; at `Total = 0` the denominator is
exactly 1 and each ratio equals its numerator. -/
theorem c4_ratio_denominator (df : Table)
    (h7 : missingCategory df.cols = none)
    (hfresh : ∀ n ∈ engineeredNames, n ∉ df.cols)
    (hwf : Table.WF df) (hne : df.rows ≠ []) :
    ∃ out, engineer_features df = .ok out ∧
      (∀ r ∈ df.rows,
        getCell out.cols (r ++ engineeredCells df.cols (sevLo df) (sevHi df) r)
            "DV_to_Total_Ratio" =
          some (Cell.num (domesticViolenceTotal df.cols r /
            (totalWomenCrimes df.cols r + 1))) ∧
        getCell out.cols (r ++ engineeredCells df.cols (sevLo df) (sevHi df) r)
            "Public_to_Total_Ratio" =
          some (Cell.num (publicSafetyTotal df.cols r /
            (totalWomenCrimes df.cols r + 1))) ∧
        (totalWomenCrimes df.cols r = 0 →
          totalWomenCrimes df.cols r + 1 = 1 ∧
          getCell out.cols
              (r ++ engineeredCells df.cols (sevLo df) (sevHi df) r)
              "DV_to_Total_Ratio" =
            some (Cell.num (domesticViolenceTotal df.cols r)) ∧
          getCell out.cols
              (r ++ engineeredCells df.cols (sevLo df) (sevHi df) r)
              "Public_to_Total_Ratio" =
            some (Cell.num (publicSafetyTotal df.cols r)))) := by
  refine ⟨_, engineer_features_ok df h7 hne hfresh, ?_⟩
  intro r hr
  have hdv := @getCell_append df.cols engineeredNames r
    (engineeredCells df.cols (sevLo df) (sevHi df) r) "DV_to_Total_Ratio"
    (hfresh _ (by simp [engineeredNames])) (hwf r hr)
  have hps := @getCell_append df.cols engineeredNames r
    (engineeredCells df.cols (sevLo df) (sevHi df) r) "Public_to_Total_Ratio"
    (hfresh _ (by simp [engineeredNames])) (hwf r hr)
  refine ⟨?_, ?_, ?_⟩
  · rw [hdv]; exact getCell_engineered_dvr _ _ _ _
  · rw [hps]; exact getCell_engineered_psr _ _ _ _
  · intro h0
    refine ⟨by rw [h0]; norm_num, ?_, ?_⟩
    · rw [hdv, getCell_engineered_dvr, h0]
      norm_num
    · rw [hps, getCell_engineered_psr, h0]
      norm_num

/-- Witness for C4 at a region with zero crimes everywhere: the
conclusion holds at the all-zero single-row table, whose ratios are the
numerators divided by 1. -/
theorem c4_witness :
    ∃ out, engineer_features tblAllZero = .ok out ∧
      (∀ r ∈ tblAllZero.rows,
        getCell out.cols
            (r ++ engineeredCells tblAllZero.cols (sevLo tblAllZero)
              (sevHi tblAllZero) r) "DV_to_Total_Ratio" =
          some (Cell.num (domesticViolenceTotal tblAllZero.cols r /
            (totalWomenCrimes tblAllZero.cols r + 1))) ∧
        getCell out.cols
            (r ++ engineeredCells tblAllZero.cols (sevLo tblAllZero)
              (sevHi tblAllZero) r) "Public_to_Total_Ratio" =
          some (Cell.num (publicSafetyTotal tblAllZero.cols r /
            (totalWomenCrimes tblAllZero.cols r + 1))) ∧
        (totalWomenCrimes tblAllZero.cols r = 0 →
          totalWomenCrimes tblAllZero.cols r + 1 = 1 ∧
          getCell out.cols
              (r ++ engineeredCells tblAllZero.cols (sevLo tblAllZero)
                (sevHi tblAllZero) r) "DV_to_Total_Ratio" =
            some (Cell.num (domesticViolenceTotal tblAllZero.cols r)) ∧
          getCell out.cols
              (r ++ engineeredCells tblAllZero.cols (sevLo tblAllZero)
                (sevHi tblAllZero) r) "Public_to_Total_Ratio" =
            some (Cell.num (publicSafetyTotal tblAllZero.cols r)))) :=
  c4_ratio_denominator tblAllZero (by decide) (by decide)
    (by unfold Table.WF; decide) (by decide)

/-- C10: when every row of a non-empty batch has the same severity (in
particular on a single-row batch), the zero-range min–max case resolves
to a normalized value of 0 and every row gets `Safety_Score = 100`. -/
theorem c10_constant_severity (df : Table)
    (h7 : missingCategory df.cols = none)
    (hfresh : ∀ n ∈ engineeredNames, n ∉ df.cols)
    (hwf : Table.WF df) (hne : df.rows ≠ [])
    (hconst : ∀ r ∈ df.rows, ∀ r2 ∈ df.rows,
      severityScore df.cols r = severityScore df.cols r2) :
    ∃ out, engineer_features df = .ok out ∧
      (∀ r ∈ df.rows,
        minmaxNormalize (sevLo df) (sevHi df) (severityScore df.cols r) = 0 ∧
        getCell out.cols (r ++ engineeredCells df.cols (sevLo df) (sevHi df) r)
          "Safety_Score" = some (Cell.num 100)) := by
  refine ⟨_, engineer_features_ok df h7 hne hfresh, ?_⟩
  intro r hr
  rcases sevLo_mem hne with ⟨r0, hr0, he⟩
  have hsev : severityScore df.cols r = sevLo df := by
    rw [he]
    exact hconst r hr r0 hr0
  constructor
  · rw [hsev]
    exact minmaxNormalize_at_lo _ _
  · rw [getCell_append (hfresh _ (by simp [engineeredNames])) (hwf r hr),
      getCell_engineered_safety, hsev, safetyScore_at_lo]

/-- Witness for C10 at a single-row table: its unique row scores 100. -/
theorem c10_witness :
    ∃ out, engineer_features tblFull = .ok out ∧
      (∀ r ∈ tblFull.rows,
        minmaxNormalize (sevLo tblFull) (sevHi tblFull)
          (severityScore tblFull.cols r) = 0 ∧
        getCell out.cols
          (r ++ engineeredCells tblFull.cols (sevLo tblFull) (sevHi tblFull) r)
          "Safety_Score" = some (Cell.num 100)) :=
  c10_constant_severity tblFull (by decide) (by decide)
    (by unfold Table.WF; decide) (by decide)
    (by
      intro r hr r2 hr2
      rw [List.mem_singleton.mp hr, List.mem_singleton.mp hr2])

/-- C1: for every trained model (any fitted scaler transform and any
regressor) and every input table carrying the feature and key columns,
inference returns exactly one record per input row in row order; each
record's safety score is the continuous prediction clipped to
`[0, 100]` and rounded to 2 decimals, its category is a function of that
final score alone, and the tiers are `≥80` Low, `[60, 80)` Moderate,
`<60` High — exactly one per score. -/
theorem c1_inference_records (f : List ℚ → List ℚ) (g : List ℚ → ℚ)
    (df : Table) (hfeat : ∀ c ∈ modelFeatures, c ∈ df.cols)
    (hstate : "STATE/UT" ∈ df.cols) (hdistrict : "DISTRICT" ∈ df.cols) :
    (∃ results,
      get_risk_levels { scaler := some f, model := some g } df =
        .ok results ∧
      results = df.rows.map (fun r =>
        { state := (getCell df.cols r "STATE/UT").getD (.str ""),
          district := (getCell df.cols r "DISTRICT").getD (.str ""),
          safety_score :=
            round2 (clip0100 (g (f (modelFeatures.map (rowVal df.cols r))))),
          risk_category :=
            categorize (round2 (clip0100
              (g (f (modelFeatures.map (rowVal df.cols r)))))) }) ∧
      results.length = df.rows.length) ∧
    (∀ s : ℚ, (categorize s = "Low Risk" ↔ 80 ≤ s) ∧
      (categorize s = "Moderate Risk" ↔ 60 ≤ s ∧ s < 80) ∧
      (categorize s = "High Risk" ↔ s < 60)) ∧
    (∀ q : ℚ, 0 ≤ clip0100 q ∧ clip0100 q ≤ 100) := by
  refine ⟨?_, categorize_spec, clip0100_bounds⟩
  refine ⟨_, ?_, rfl, (List.length_map _ _)⟩
  simp only [get_risk_levels, featureMatrix_ok hfeat, ok_bind]
  simp only [memB_iff.mpr hstate, memB_iff.mpr hdistrict, Bool.not_true,
    Bool.false_eq_true, if_false]
  rw [List.map_map, List.map_map, zip_map_self]
  simp [Function.comp]

/-- Witness for C1: a concrete trained model (identity scaler, constant
prediction 85) on a one-row table; the resulting single record scores
85 and is Low Risk. -/
theorem c1_witness :
    (∃ results,
      get_risk_levels
          { scaler := some (fun v => v), model := some (fun _ => (85 : ℚ)) }
          tblInfer = .ok results ∧
      results = tblInfer.rows.map (fun r =>
        { state := (getCell tblInfer.cols r "STATE/UT").getD (.str ""),
          district := (getCell tblInfer.cols r "DISTRICT").getD (.str ""),
          safety_score := round2 (clip0100 ((fun _ => (85 : ℚ))
            ((fun v => v) (modelFeatures.map (rowVal tblInfer.cols r))))),
          risk_category := categorize (round2 (clip0100 ((fun _ => (85 : ℚ))
            ((fun v => v) (modelFeatures.map (rowVal tblInfer.cols r)))))) }) ∧
      results.length = tblInfer.rows.length) ∧
    round2 (clip0100 (85 : ℚ)) = 85 ∧ categorize 85 = "Low Risk" :=
  ⟨(c1_inference_records (fun v => v) (fun _ => 85) tblInfer (by decide)
      (by decide) (by decide)).1,
   by
    simp [round2, clip0100, min_def, max_def]
    norm_num [round_eq],
   by norm_num [categorize]⟩

/-- C3: the orchestrator call always yields either a success envelope
whose `total_regions` is the length of its data list, or an error
envelope carrying the raised error's message — for every backend and
every input list, with no third shape and no partly-scored output. -/
theorem c3_envelope_totality (backend : MLBackend) (fps : List SourceFile) :
    (∃ rd, runPipeline backend fps = .ok rd ∧
      get_navigation_data backend fps = .success rd.length rd) ∨
    (∃ e, runPipeline backend fps = .error e ∧
      get_navigation_data backend fps = .error e.message) := by
  cases h : runPipeline backend fps with
  | ok rd => exact Or.inl ⟨rd, rfl, by simp [get_navigation_data, h]⟩
  | error e => exact Or.inr ⟨e, rfl, by simp [get_navigation_data, h]⟩

/-- Counterexample to C6: reconciling two loadable sources with no
common column yields a zero-column, two-row frame whose duplicate empty
rows are NOT removed — pandas `drop_duplicates` returns an empty frame
unchanged — falsifying the claim's universal dedup statement. -/
theorem c6_counterexample :
    load_and_combine_datasets [.table srcX, .table srcY] = .ok tblZeroCols ∧
    tblZeroCols.rows = [[], []] ∧
    ¬tblZeroCols.rows.Nodup ∧
    dropDup [] tblZeroCols.rows ≠ tblZeroCols.rows :=
  ⟨by rfl, rfl, by decide, by decide⟩

/-- C6 amended: a successful reconciliation's column set is exactly the
intersection of the renamed sources' columns, and its rows are the
concatenated common-column projections; whenever at least one common
column survives, exact duplicates are removed keeping the first-seen
occurrence (a duplicate-free subsequence with the same membership),
while a zero-column result is returned with its duplicate rows intact
(pandas' empty-frame short-circuit). -/
theorem c6_reconciliation_amended (fps : List SourceFile) (t : Table)
    (h : load_and_combine_datasets fps = .ok t) :
    (∀ c, c ∈ t.cols ↔
      ∀ u ∈ (fps.filterMap SourceFile.read?).map Table.rename, c ∈ u.cols) ∧
    (t.cols ≠ [] →
      t.rows = dropDup []
        (projectedRows ((fps.filterMap SourceFile.read?).map Table.rename)
          t.cols) ∧
      t.rows.Nodup ∧
      t.rows.Sublist
        (projectedRows ((fps.filterMap SourceFile.read?).map Table.rename)
          t.cols) ∧
      (∀ r, r ∈ t.rows ↔
        r ∈ projectedRows ((fps.filterMap SourceFile.read?).map Table.rename)
          t.cols)) ∧
    (t.cols = [] →
      t.rows =
        projectedRows ((fps.filterMap SourceFile.read?).map Table.rename)
          t.cols) := by
  obtain ⟨d, ds, hdfs, ht⟩ := load_ok_shape h
  subst ht
  rw [hdfs, drop_duplicates_cols]
  refine ⟨fun c => mem_commonColumns, ?_, ?_⟩
  · intro hc
    rw [drop_duplicates_rows_of_cols_ne hc]
    refine ⟨rfl, dropDup_nodup _ _, dropDup_sublist _ _, ?_⟩
    intro r
    rw [mem_dropDup]
    simp
  · intro hc
    exact drop_duplicates_rows_of_cols_eq_nil hc

/-- Witness for the amended C6 at the spec's schema-intersection
scenario: source A has columns X, Y, Z, source B has X, Y; the
reconciled table is exactly `tblXY`, whose columns are X and Y but not
Z, and whose rows are deduplicated. -/
theorem c6_witness :
    ((∀ c, c ∈ tblXY.cols ↔
      ∀ u ∈ ([SourceFile.table srcXYZ,
        SourceFile.table srcXY].filterMap SourceFile.read?).map Table.rename,
        c ∈ u.cols) ∧
    (tblXY.cols ≠ [] →
      tblXY.rows = dropDup []
        (projectedRows (([SourceFile.table srcXYZ,
          SourceFile.table srcXY].filterMap SourceFile.read?).map
            Table.rename) tblXY.cols) ∧
      tblXY.rows.Nodup ∧
      tblXY.rows.Sublist
        (projectedRows (([SourceFile.table srcXYZ,
          SourceFile.table srcXY].filterMap SourceFile.read?).map
            Table.rename) tblXY.cols) ∧
      (∀ r, r ∈ tblXY.rows ↔
        r ∈ projectedRows (([SourceFile.table srcXYZ,
          SourceFile.table srcXY].filterMap SourceFile.read?).map
            Table.rename) tblXY.cols)) ∧
    (tblXY.cols = [] →
      tblXY.rows = projectedRows (([SourceFile.table srcXYZ,
        SourceFile.table srcXY].filterMap SourceFile.read?).map Table.rename)
        tblXY.cols)) ∧
    load_and_combine_datasets [.table srcXYZ, .table srcXY] = .ok tblXY ∧
    ("X" ∈ tblXY.cols ∧ "Y" ∈ tblXY.cols ∧ "Z" ∉ tblXY.cols) :=
  ⟨c6_reconciliation_amended [.table srcXYZ, .table srcXY] tblXY (by rfl),
   by rfl, by decide, by decide, by decide⟩

/-- C7: inference on a freshly constructed, never-trained model fails —
it never returns a row list, and on any table carrying the feature
columns the failure is the unfitted-scaler error raised before any
output row is produced (the `ModelNotTrained` condition; concretely
sklearn's `NotFittedError` from `scaler.transform`). -/
theorem c7_untrained_inference (df : Table) :
    (∀ rs, get_risk_levels RiskScoreModel.init df ≠ .ok rs) ∧
    ((∀ c ∈ modelFeatures, c ∈ df.cols) →
      get_risk_levels RiskScoreModel.init df = .error .notFitted) := by
  constructor
  · intro rs h
    cases hfm : featureMatrix df with
    | error e =>
      simp only [get_risk_levels, hfm, error_bind] at h
      exact Except.noConfusion h
    | ok X =>
      simp only [get_risk_levels, hfm, ok_bind, RiskScoreModel.init] at h
      exact Except.noConfusion h
  · intro hfeat
    simp [get_risk_levels, featureMatrix_ok hfeat, ok_bind,
      RiskScoreModel.init]

/-- Witness for C7: untrained inference on the concrete `tblInfer`
yields the unfitted error and no rows. -/
theorem c7_witness :
    (∀ rs, get_risk_levels RiskScoreModel.init tblInfer ≠ .ok rs) ∧
    get_risk_levels RiskScoreModel.init tblInfer = .error .notFitted :=
  ⟨(c7_untrained_inference tblInfer).1,
   (c7_untrained_inference tblInfer).2 (by decide)⟩

/-- Counterexample to C5: reconciling a full-schema source with one
lacking the `Rape` column yields a table with no `Rape` column at all
(the count is undefined, not defaulted to 0), and feature engineering
on it fails with a `KeyError` instead of succeeding. -/
theorem c5_counterexample :
    load_and_combine_datasets [.table tblFull, .table tblNoRape] =
      .ok tblReconciled ∧
    "Rape" ∉ tblReconciled.cols ∧
    engineer_features tblReconciled = .error (.keyError "Rape") :=
  ⟨by rfl, by decide, by rfl⟩

/-- C5 amended: a column absent from any source is dropped from the
intersection (never defaulted to 0), so it is undefined in every
surviving row; feature engineering fails with a `KeyError` on any table
whose columns lack one of the 7 categories — it succeeds only when all
7 survive. -/
theorem c5_missing_category_amended :
    (∀ (fps : List SourceFile) (t u : Table) (c : String),
      load_and_combine_datasets fps = .ok t →
      u ∈ (fps.filterMap SourceFile.read?).map Table.rename →
      c ∉ u.cols → c ∉ t.cols) ∧
    (∀ (df : Table) (c : String), c ∈ crimesAgainstWomen → c ∉ df.cols →
      ∃ c0, c0 ∈ crimesAgainstWomen ∧ c0 ∉ df.cols ∧
        engineer_features df = .error (.keyError c0)) := by
  constructor
  · intro fps t u c h hu hc hmem
    obtain ⟨d, ds, hdfs, ht⟩ := load_ok_shape h
    rw [hdfs] at hu
    subst ht
    rw [drop_duplicates_cols] at hmem
    exact hc (mem_commonColumns.mp hmem u hu)
  · intro df c hc hnotin
    cases hm : missingCategory df.cols with
    | none =>
      exfalso
      have hnone := List.find?_eq_none.mp hm c hc
      simp only [Bool.not_eq_true'] at hnone
      exact hnotin (memB_iff.mp (by simp [hnone]))
    | some c0 =>
      have h1 := List.find?_some hm
      have h2 := List.mem_of_find?_eq_some hm
      refine ⟨c0, h2, ?_, ?_⟩
      · intro hmem
        rw [memB_iff.mpr hmem] at h1
        exact Bool.noConfusion h1
      · simp [engineer_features, hm]

/-- Witness for the amended C5 at the concrete reconciliation of
`tblFull` with `tblNoRape`: `Rape` is gone from the result and
engineering it fails on a missing category. -/
theorem c5_amended_witness :
    "Rape" ∉ tblReconciled.cols ∧
    (∃ c0, c0 ∈ crimesAgainstWomen ∧ c0 ∉ tblReconciled.cols ∧
      engineer_features tblReconciled = .error (.keyError c0)) :=
  ⟨c5_missing_category_amended.1 [.table tblFull, .table tblNoRape]
     tblReconciled (Table.rename tblNoRape) "Rape" (by rfl) (by decide)
     (by decide),
   c5_missing_category_amended.2 tblReconciled "Rape" (by decide) (by decide)⟩

/-- Counterexample to C8: `train` has no guard at all — on a one-row
table (fewer than 2 distinct rows) and on a two-row table with a
constant `Safety_Score` target it succeeds instead of failing with
`InsufficientData` (no such error exists in the code). -/
theorem c8_counterexample :
    exceptIsOk (train constBackend RiskScoreModel.init tblOneRow) = true ∧
    tblOneRow.rows.length = 1 ∧
    exceptIsOk (train constBackend RiskScoreModel.init tblConstTarget) =
      true ∧
    (∀ r ∈ tblConstTarget.rows,
      rowVal tblConstTarget.cols r "Safety_Score" = 70) :=
  ⟨rfl, rfl, rfl, by decide⟩

/-- C8 amended: training performs no distinctness or degeneracy check:
for every backend it succeeds on any table that carries the three
feature columns and the target column and has at least one row,
producing a fitted scaler and model — including single-row and
constant-target tables. -/
theorem c8_no_guard_amended (backend : MLBackend) (m : RiskScoreModel)
    (df : Table) (hfeat : ∀ c ∈ modelFeatures, c ∈ df.cols)
    (htarget : "Safety_Score" ∈ df.cols) (hne : df.rows ≠ []) :
    ∃ mm, train backend m df = .ok mm ∧
      mm.scaler.isSome = true ∧ mm.model.isSome = true := by
  obtain ⟨a, l, hrows⟩ : ∃ a l, df.rows = a :: l := by
    cases hr : df.rows with
    | nil => exact absurd hr hne
    | cons a l => exact ⟨a, l, rfl⟩
  have hie : (df.rows.map (fun r => modelFeatures.map (rowVal df.cols r))).isEmpty
      = false := by
    rw [hrows]
    simp
  refine ⟨RiskScoreModel.mk
      (some (backend.fitScaler
        (df.rows.map (fun r => modelFeatures.map (rowVal df.cols r)))))
      (some (backend.fitRegressor
        ((df.rows.map (fun r => modelFeatures.map (rowVal df.cols r))).map
          (backend.fitScaler
            (df.rows.map (fun r => modelFeatures.map (rowVal df.cols r)))))
        (df.rows.map (fun r => rowVal df.cols r "Safety_Score")))),
    ?_, rfl, rfl⟩
  simp only [train, featureMatrix_ok hfeat, ok_bind,
    memB_iff.mpr htarget, Bool.not_true, Bool.false_eq_true, if_false, hie]

/-- Witness for the amended C8 at the one-row table and a concrete
backend: training succeeds. -/
theorem c8_amended_witness :
    ∃ mm, train constBackend RiskScoreModel.init tblOneRow = .ok mm ∧
      mm.scaler.isSome = true ∧ mm.model.isSome = true :=
  c8_no_guard_amended constBackend RiskScoreModel.init tblOneRow (by decide)
    (by decide) (by decide)

/-- Counterexample to C9: two sources with no common column reconcile
without any error — the result is the zero-column table — and the
failure only surfaces later, as feature engineering's `KeyError`. -/
theorem c9_counterexample :
    load_and_combine_datasets [.table srcX, .table srcY] = .ok tblZeroCols ∧
    engineer_features tblZeroCols = .error (.keyError "Rape") :=
  ⟨by rfl, by rfl⟩

/-- C9 amended: when the renamed sources share zero common columns the
reconciler raises nothing and returns a zero-column table; the failure
is deferred to feature engineering, which raises the `KeyError` on the
first category. -/
theorem c9_deferred_failure_amended (fps : List SourceFile)
    (hcc : commonColumns ((fps.filterMap SourceFile.read?).map Table.rename)
      = [])
    (hne : (fps.filterMap SourceFile.read?).map Table.rename ≠ []) :
    ∃ t, load_and_combine_datasets fps = .ok t ∧ t.cols = [] ∧
      engineer_features t = .error (.keyError "Rape") := by
  obtain ⟨d, ds, hdfs⟩ : ∃ d ds,
      (fps.filterMap SourceFile.read?).map Table.rename = d :: ds := by
    cases hr : (fps.filterMap SourceFile.read?).map Table.rename with
    | nil => exact absurd hr hne
    | cons d ds => exact ⟨d, ds, rfl⟩
  rw [hdfs] at hcc
  refine ⟨{ cols := [], rows := projectedRows (d :: ds) [] },
    ?_, rfl, by rfl⟩
  simp only [load_and_combine_datasets, hdfs, hcc]
  simp [Table.drop_duplicates]

/-- Witness for the amended C9 at the concrete disjoint sources. -/
theorem c9_amended_witness :
    ∃ t, load_and_combine_datasets [.table srcX, .table srcY] = .ok t ∧
      t.cols = [] ∧ engineer_features t = .error (.keyError "Rape") :=
  c9_deferred_failure_amended [.table srcX, .table srcY] (by rfl) (by decide)

end MapLY
